import Mathlib

/-!
Shallow embedding of the chart-data normalization pipelines of the
adap-chatbot repository, covering the three scripts

  * `generate_chart.py`            (date mode, weekday bar chart)
  * `generate_category_chart.py`   (category mode, spending pie chart)
  * `generate_income_chart.py`     (income variant, pie chart)

Numbers are modelled by `ℚ` (exactness of the decimal literals appearing in
the claims; float rounding is not at issue in any claim).  Python's `float()`
builtin is modelled on the fragment the data exercises: optional sign,
decimal digits with an optional fractional part, surrounding whitespace
stripped.  (Exponents, `inf`/`nan` and underscore separators are outside the
modelled fragment.)  A fatal `sys.exit(1)` — whether from an explicit handler
or from an uncaught `KeyError`/`TypeError` — is modelled by `Except.error`.
-/

namespace AdapChart

/-- A JSON scalar as it can appear in the `total` field: a number or a
string.  (The repository's inputs are MongoDB aggregation results of this
shape.) -/
inductive JVal where
  | num (q : ℚ)
  | str (s : String)
deriving DecidableEq

/-- A raw input record `{ "_id": ..., "total": ... }`.  A missing field is
`none`; reading a missing field raises `KeyError` in Python. -/
structure RawRecord where
  id : Option String
  total : Option JVal
deriving DecidableEq

/-- The ways the scripts terminate with exit status 1 during data
processing: empty input (`if not data: ... sys.exit(1)`), a malformed record
(missing field / failed parse / failed `float()` coercion), or an uncaught
`TypeError` from arithmetic on a non-number. -/
inductive Err where
  | emptyInput
  | malformedRecord
  | typeError
deriving DecidableEq

/-- Value of a nonempty digit string, most significant digit first. -/
def digitsToNat (cs : List Char) : Nat :=
  cs.foldl (fun a c => a * 10 + (c.toNat - 48)) 0

/-- Split a character list at every occurrence of the separator, keeping
empty groups (the semantics of Python `str.split(sep)` / Lean
`String.splitOn` for a one-character separator). -/
def splitOnChar (sep : Char) : List Char → List (List Char)
  | [] => [[]]
  | c :: rest =>
      if c == sep then [] :: splitOnChar sep rest
      else
        match splitOnChar sep rest with
        | [] => [[c]]
        | g :: gs => (c :: g) :: gs

/-- Split a character list at every character satisfying `p`, keeping empty
groups. -/
def splitWhen (p : Char → Bool) : List Char → List (List Char)
  | [] => [[]]
  | c :: rest =>
      if p c then [] :: splitWhen p rest
      else
        match splitWhen p rest with
        | [] => [[c]]
        | g :: gs => (c :: g) :: gs

/-- Python `str.strip()`: drop whitespace from both ends. -/
def trimChars (cs : List Char) : List Char :=
  ((cs.dropWhile Char.isWhitespace).reverse.dropWhile Char.isWhitespace).reverse

/-- Python `float(s)` on a string, restricted to the fragment
`[ws][+|-]digits[.digits][ws]`: `none` models the `ValueError` raised on
anything non-numeric. -/
def parsePyFloat (s : String) : Option ℚ :=
  let cs := trimChars s.toList
  let signSplit : Bool × List Char :=
    match cs with
    | '-' :: rest => (true, rest)
    | '+' :: rest => (false, rest)
    | _ => (false, cs)
  let neg := signSplit.1
  let u := signSplit.2
  let core : Option ℚ :=
    match splitOnChar '.' u with
    | [a] =>
        if !a.isEmpty && a.all Char.isDigit then
          some ((digitsToNat a : ℚ))
        else none
    | [a, b] =>
        if (!a.isEmpty || !b.isEmpty)
            && a.all Char.isDigit && b.all Char.isDigit then
          some ((digitsToNat a : ℚ)
            + (digitsToNat b : ℚ) / ((10 : ℚ) ^ b.length))
        else none
    | _ => none
  core.map (fun q => if neg then -q else q)

/-- Python `float(v)` on a JSON scalar: a number is returned as-is, a string
goes through `parsePyFloat`. -/
def pyFloat? : JVal → Option ℚ
  | JVal.num q => some q
  | JVal.str s => parsePyFloat s

/-- Python `str.capitalize()` (ASCII fragment): first character upper-cased,
the rest lower-cased. -/
def pyCapitalize : List Char → List Char
  | [] => []
  | c :: rest => c.toUpper :: rest.map Char.toLower

/-- Python `string.capwords(s)`: split on whitespace runs (empty groups
dropped, as `str.split()` with no argument does), capitalize each word,
join with single spaces. -/
def capwords (s : String) : String :=
  String.mk
    (List.intercalate [' ']
      (((splitWhen Char.isWhitespace s.toList).filter
          (fun w => !w.isEmpty)).map pyCapitalize))

/-- A Python list comprehension `[f(item) for item in data]` whose body can
raise (`KeyError` / parse failure): evaluates left to right, the first
failure aborts the whole script. -/
def extractAll (f : α → Option β) : List α → Option (List β)
  | [] => some []
  | x :: rest =>
      match f x with
      | none => none
      | some y => (extractAll f rest).map (fun ys => y :: ys)

/-! ## generate_category_chart.py — category mode -/

/-- Result of the category-mode normalization: labels, clamped values, and
the number of negative-value warnings printed to stderr. -/
structure CatResult where
  labels : List String
  values : List ℚ
  warnings : Nat
deriving DecidableEq

/-- The coercion loop of `generate_category_chart.py` (lines 51–63): each
raw amount is passed through `float()`; a failed coercion exits the script,
a negative value is appended as `0.0` with a warning, a non-negative value
is appended unchanged. -/
def coerceLoop : List JVal → Except Err (List ℚ × Nat)
  | [] => Except.ok ([], 0)
  | raw :: rest =>
      match pyFloat? raw with
      | none => Except.error Err.malformedRecord
      | some q =>
          (coerceLoop rest).map (fun p =>
            if q < 0 then (0 :: p.1, p.2 + 1) else (q :: p.1, p.2))

/-- The data-processing part of `generate_category_chart.py`: emptiness
check (line 39), extraction of `_id`s and `total`s (lines 48–49), then the
coercion/clamping loop (lines 51–63). -/
def categoryNormalize (data : List RawRecord) : Except Err CatResult :=
  if data.isEmpty then Except.error Err.emptyInput
  else
    match extractAll (fun r => r.id) data with
    | none => Except.error Err.malformedRecord
    | some cats =>
        match extractAll (fun r => r.total) data with
        | none => Except.error Err.malformedRecord
        | some raws =>
            (coerceLoop raws).map (fun p => ⟨cats, p.1, p.2⟩)

def verdeClaro : String := "#F3E5AB"
def verdeMedio : String := "#E6D27A"
def verdeEscuro : String := "#C8B458"

/-- Color selection of `generate_category_chart.py` (lines 70–89):
1 category → the single mid tone, odd count → cycle the three shades,
even count → cycle the two extreme shades. -/
def colorsToUse (numCategories : Nat) : List String :=
  if numCategories == 0 then []
  else if numCategories == 1 then [verdeMedio]
  else if numCategories % 2 != 0 then
    (List.range numCategories).map
      (fun i => [verdeClaro, verdeMedio, verdeEscuro].getD (i % 3) (""))
  else
    (List.range numCategories).map
      (fun i => [verdeClaro, verdeEscuro].getD (i % 2) (""))

/-! ## generate_income_chart.py — income variant -/

/-- Result of the income-chart normalization: capitalized labels and the raw
(uncoerced, unclamped) amounts. -/
structure IncomeResult where
  labels : List String
  values : List JVal
deriving DecidableEq

/-- The data-processing part of `generate_income_chart.py` (lines 29–34):
emptiness check, then `categories = [string.capwords(item["_id"]) ...]` and
`amounts = [item["total"] ...]` with no coercion and no clamping. -/
def incomeNormalize (data : List RawRecord) : Except Err IncomeResult :=
  if data.isEmpty then Except.error Err.emptyInput
  else
    match extractAll (fun r => r.id) data with
    | none => Except.error Err.malformedRecord
    | some ids =>
        match extractAll (fun r => r.total) data with
        | none => Except.error Err.malformedRecord
        | some raws => Except.ok ⟨ids.map capwords, raws⟩

def incomeClaro : String := "#D4EDDA"
def incomeMedio : String := "#A3D9B1"
def incomeEscuro : String := "#73C686"

/-- Color selection of `generate_income_chart.py` (lines 38–45): always
cycle the three shades, with no dependence on the parity of the count. -/
def incomeColorsToUse (numCategories : Nat) : List String :=
  (List.range numCategories).map
    (fun i => [incomeClaro, incomeMedio, incomeEscuro].getD (i % 3) (""))

/-! ## generate_chart.py — date mode -/

/-- A calendar date as produced by `datetime.strptime(s, "%Y-%m-%d")`. -/
structure Date where
  year : Nat
  month : Nat
  day : Nat
deriving DecidableEq

def isLeap (y : Nat) : Bool :=
  (y % 4 == 0 && y % 100 != 0) || y % 400 == 0

def daysInMonth (y m : Nat) : Nat :=
  if m == 2 then (if isLeap y then 29 else 28)
  else if m == 4 || m == 6 || m == 9 || m == 11 then 30
  else 31

/-- `datetime.strptime(s, "%Y-%m-%d")`: three dash-separated digit groups
with a valid calendar range; `none` models the `ValueError` on anything
else. -/
def parseDate (s : String) : Option Date :=
  match splitOnChar '-' s.toList with
  | [ys, ms, ds] =>
      if !ys.isEmpty && ys.all Char.isDigit
          && !ms.isEmpty && ms.all Char.isDigit
          && !ds.isEmpty && ds.all Char.isDigit then
        let y := digitsToNat ys
        let m := digitsToNat ms
        let d := digitsToNat ds
        if 1 ≤ y && y ≤ 9999 && 1 ≤ m && m ≤ 12
            && 1 ≤ d && d ≤ daysInMonth y m then
          some ⟨y, m, d⟩
        else none
      else none
  | _ => none

/-- Day of week by Sakamoto's method, `0 = Sunday` … `6 = Saturday`
(the value underlying `strftime("%a")`). -/
def dayOfWeek (dt : Date) : Nat :=
  let y := if dt.month < 3 then dt.year - 1 else dt.year
  (y + y / 4 - y / 100 + y / 400
    + [0, 3, 2, 5, 0, 3, 5, 1, 4, 6, 2, 4].getD (dt.month - 1) 0
    + dt.day) % 7

/-- `strftime("%a")` for the C locale. -/
def engAbbrev (w : Nat) : String :=
  ["Sun", "Mon", "Tue", "Wed", "Thu", "Fri", "Sat"].getD w ("")

/-- The `dias_semana` translation dict of `generate_chart.py` (lines
44–47). -/
def diasSemana : String → String
  | "Mon" => "seg"
  | "Tue" => "ter"
  | "Wed" => "qua"
  | "Thu" => "qui"
  | "Fri" => "sex"
  | "Sat" => "sáb"
  | "Sun" => "dom"
  | _ => ""

/-- `dias_semana[d.strftime("%a")]`: the Portuguese weekday abbreviation of
a date. -/
def weekdayPt (dt : Date) : String :=
  diasSemana (engAbbrev (dayOfWeek dt))

/-- Zero-padded two-digit rendering used by `strftime("%d/%m")`. -/
def pad2 (n : Nat) : String :=
  if n < 10 then "0" ++ toString n else toString n

/-- `d.strftime("%d/%m")`. -/
def ddmm (dt : Date) : String :=
  pad2 dt.day ++ "/" ++ pad2 dt.month

/-- The fixed display order `dias_da_semana_ordenados` (line 61). -/
def diasOrdenados : List String :=
  ["seg", "ter", "qua", "qui", "sex", "sáb", "dom"]

/-- A record after the parsing phase: its date and its raw total. -/
structure ParsedRec where
  date : Date
  total : JVal
deriving DecidableEq

/-- Assignment `dict[k] = v` on a dict represented as an insertion-ordered
association list whose keys already include `k` (as is the case for the
weekday dicts, keyed by the fixed seven weekdays). -/
def updateAssoc (l : List (String × α)) (k : String) (v : α) :
    List (String × α) :=
  l.map (fun p => if p.1 == k then (k, v) else p)

/-- The overlay loop on `totals_por_dia` (lines 62, 66–67): start every
weekday at `0`, then write each record's raw total into its weekday slot,
in input order. -/
def overlayTotals (recs : List ParsedRec) : List (String × JVal) :=
  recs.foldl (fun acc r => updateAssoc acc (weekdayPt r.date) r.total)
    (diasOrdenados.map (fun d => (d, JVal.num 0)))

/-- The formatted label `f"{dia} ({d.strftime('%d/%m')})"` written by the
overlay loop (line 68). -/
def dayLabel (dt : Date) : String :=
  weekdayPt dt ++ " (" ++ ddmm dt ++ ")"

/-- The overlay loop on `formatted_labels` (lines 63, 66, 68): start every
weekday at `""`, then write each record's `"dia (dd/mm)"` label into its
weekday slot, in input order. -/
def overlayLabels (recs : List ParsedRec) : List (String × String) :=
  recs.foldl
    (fun acc r => updateAssoc acc (weekdayPt r.date) (dayLabel r.date))
    (diasOrdenados.map (fun d => (d, "")))

/-- Python `sum` over the plotted values: `none` models the uncaught
`TypeError` raised when a string total reaches the arithmetic. -/
def sumJ : List JVal → Option ℚ
  | [] => some 0
  | JVal.num q :: rest => (sumJ rest).map (fun s => q + s)
  | JVal.str _ :: _rest => none

/-- Result of the date-mode pipeline: `dias_plot`, `totais_plot` and
`total_gastos`. -/
structure DateResult where
  labels : List String
  values : List JVal
  total : ℚ
deriving DecidableEq

/-- The data-processing part of `generate_chart.py`: emptiness check (line
39), parsing of dates and extraction of totals (lines 51–52), the
gap-filled weekday overlay (lines 61–68), the plot lists (lines 71–72) and
`total_gastos` (line 75). -/
def dateChart (data : List RawRecord) : Except Err DateResult :=
  if data.isEmpty then Except.error Err.emptyInput
  else
    match extractAll (fun r => r.id.bind parseDate) data with
    | none => Except.error Err.malformedRecord
    | some dates =>
        match extractAll (fun r => r.total) data with
        | none => Except.error Err.malformedRecord
        | some totals =>
            let recs := (dates.zip totals).map
              (fun p => ParsedRec.mk p.1 p.2)
            let diasPlot := (overlayLabels recs).map
              (fun p => if p.2 ≠ "" then p.2 else p.1)
            let totaisPlot := (overlayTotals recs).map (fun p => p.2)
            match sumJ totaisPlot with
            | none => Except.error Err.typeError
            | some s => Except.ok ⟨diasPlot, totaisPlot, s⟩

/-- Modelled from the spec: the spec's date-range mode (§4.1) filters
records by "the N-day window ending today"; the code under `src/` has no
such check, so the window-membership test is built here from the spec's
words, for comparison with the code's behavior.  `rataDie` is a day count
that is strictly monotone in the calendar date. -/
def daysBeforeMonth (y m : Nat) : Nat :=
  ((List.range (m - 1)).map (fun i => daysInMonth y (i + 1))).sum

/-- Day number of a date (1-01-01 ↦ 1), used only to express the spec's
window test. -/
def rataDie (dt : Date) : Nat :=
  let y := dt.year - 1
  365 * y + y / 4 - y / 100 + y / 400
    + daysBeforeMonth dt.year dt.month + dt.day

/-- Modelled from the spec: `d` lies in the trailing `n`-day window ending
at `today` (spec §4.1, date-range mode). -/
def inWindow (today : Date) (n : Nat) (d : Date) : Bool :=
  rataDie today + 1 ≤ rataDie d + n && rataDie d ≤ rataDie today

/-- `True` iff the record's total coerces to a negative float — the
condition under which the category script prints its warning. -/
def isNegTotal (t : JVal) : Bool :=
  match pyFloat? t with
  | some q => decide (q < 0)
  | none => false

/-! ## Basic lemmas about the extraction and coercion loops -/

theorem extractAll_length (f : α → Option β) :
    ∀ {l : List α} {ys : List β}, extractAll f l = some ys →
      ys.length = l.length := by
  intro l
  induction l with
  | nil => intro ys h; cases h; rfl
  | cons x rest ih =>
      intro ys h
      unfold extractAll at h
      cases hx : f x with
      | none => rw [hx] at h; cases h
      | some y =>
          rw [hx] at h
          cases hr : extractAll f rest with
          | none => rw [hr] at h; cases h
          | some zs =>
              rw [hr] at h
              cases h
              simp [ih hr]

theorem extractAll_none_of_mem (f : α → Option β) {l : List α} {x : α}
    (hx : x ∈ l) (hf : f x = none) : extractAll f l = none := by
  induction l with
  | nil => cases hx
  | cons a rest ih =>
      rcases List.mem_cons.mp hx with h | h
      · subst h; simp [extractAll, hf]
      · unfold extractAll
        cases ha : f a with
        | none => rfl
        | some y => rw [ih h]; rfl

theorem extractAll_mem_of_mem (f : α → Option β) :
    ∀ {l : List α} {ys : List β}, extractAll f l = some ys →
      ∀ {x : α} {y : β}, x ∈ l → f x = some y → y ∈ ys := by
  intro l
  induction l with
  | nil => intro ys h x y hx; cases hx
  | cons a rest ih =>
      intro ys h x y hx hf
      unfold extractAll at h
      cases ha : f a with
      | none => rw [ha] at h; cases h
      | some b =>
          rw [ha] at h
          cases hr : extractAll f rest with
          | none => rw [hr] at h; cases h
          | some zs =>
              rw [hr] at h
              cases h
              rcases List.mem_cons.mp hx with h | h
              · subst h
                rw [ha] at hf
                cases hf
                exact List.mem_cons_self _ _
              · exact List.mem_cons_of_mem _ (ih hr h hf)

theorem extractAll_mem_rev (f : α → Option β) :
    ∀ {l : List α} {ys : List β}, extractAll f l = some ys →
      ∀ {y : β}, y ∈ ys → ∃ x ∈ l, f x = some y := by
  intro l
  induction l with
  | nil => intro ys h y hy; cases h; cases hy
  | cons a rest ih =>
      intro ys h y hy
      unfold extractAll at h
      cases ha : f a with
      | none => rw [ha] at h; cases h
      | some b =>
          rw [ha] at h
          cases hr : extractAll f rest with
          | none => rw [hr] at h; cases h
          | some zs =>
              rw [hr] at h
              cases h
              rcases List.mem_cons.mp hy with h | h
              · exact ⟨a, List.mem_cons_self _ _, by rw [ha, h]⟩
              · rcases ih hr h with ⟨x, hx, hfx⟩
                exact ⟨x, List.mem_cons_of_mem _ hx, hfx⟩

theorem coerceLoop_length :
    ∀ {raws : List JVal} {vs : List ℚ} {w : Nat},
      coerceLoop raws = Except.ok (vs, w) → vs.length = raws.length := by
  intro raws
  induction raws with
  | nil => intro vs w h; cases h; rfl
  | cons raw rest ih =>
      intro vs w h
      unfold coerceLoop at h
      cases hq : pyFloat? raw with
      | none => rw [hq] at h; cases h
      | some q =>
          rw [hq] at h
          cases hr : coerceLoop rest with
          | error e => rw [hr] at h; cases h
          | ok p =>
              obtain ⟨vs', w'⟩ := p
              rw [hr] at h
              by_cases hneg : q < 0
              · simp [Except.map, hneg] at h
                obtain ⟨h1, h2⟩ := h
                subst h1; subst h2
                simp [ih hr]
              · simp [Except.map, hneg] at h
                obtain ⟨h1, h2⟩ := h
                subst h1; subst h2
                simp [ih hr]

theorem coerceLoop_nonneg :
    ∀ {raws : List JVal} {vs : List ℚ} {w : Nat},
      coerceLoop raws = Except.ok (vs, w) → ∀ v ∈ vs, 0 ≤ v := by
  intro raws
  induction raws with
  | nil => intro vs w h v hv; cases h; cases hv
  | cons raw rest ih =>
      intro vs w h v hv
      unfold coerceLoop at h
      cases hq : pyFloat? raw with
      | none => rw [hq] at h; cases h
      | some q =>
          rw [hq] at h
          cases hr : coerceLoop rest with
          | error e => rw [hr] at h; cases h
          | ok p =>
              obtain ⟨vs', w'⟩ := p
              rw [hr] at h
              by_cases hneg : q < 0
              · simp [Except.map, hneg] at h
                obtain ⟨h1, h2⟩ := h
                subst h1; subst h2
                rcases List.mem_cons.mp hv with h | h
                · rw [h]
                · exact ih hr v h
              · simp [Except.map, hneg] at h
                obtain ⟨h1, h2⟩ := h
                subst h1; subst h2
                rcases List.mem_cons.mp hv with h | h
                · rw [h]; exact le_of_not_lt hneg
                · exact ih hr v h

theorem coerceLoop_warnings :
    ∀ {raws : List JVal} {vs : List ℚ} {w : Nat},
      coerceLoop raws = Except.ok (vs, w) →
        w = raws.countP isNegTotal := by
  intro raws
  induction raws with
  | nil => intro vs w h; cases h; rfl
  | cons raw rest ih =>
      intro vs w h
      unfold coerceLoop at h
      cases hq : pyFloat? raw with
      | none => rw [hq] at h; cases h
      | some q =>
          rw [hq] at h
          cases hr : coerceLoop rest with
          | error e => rw [hr] at h; cases h
          | ok p =>
              obtain ⟨vs', w'⟩ := p
              rw [hr] at h
              rw [List.countP_cons]
              by_cases hneg : q < 0
              · simp [Except.map, hneg] at h
                obtain ⟨h1, h2⟩ := h
                subst h1; subst h2
                simp [isNegTotal, hq, hneg, ih hr]
              · simp [Except.map, hneg] at h
                obtain ⟨h1, h2⟩ := h
                subst h1; subst h2
                simp [isNegTotal, hq, hneg, ih hr]

theorem coerceLoop_error_of_mem :
    ∀ {raws : List JVal} {t : JVal}, t ∈ raws → pyFloat? t = none →
      coerceLoop raws = Except.error Err.malformedRecord := by
  intro raws
  induction raws with
  | nil => intro t ht; cases ht
  | cons raw rest ih =>
      intro t ht hf
      rcases List.mem_cons.mp ht with h | h
      · subst h; simp [coerceLoop, hf]
      · unfold coerceLoop
        cases hq : pyFloat? raw with
        | none => rfl
        | some q => rw [ih h hf]; rfl

/-! ## The weekday overlay: last write wins -/

theorem updateAssoc_map (l : List String) (f : String → α) (k : String)
    (v : α) :
    updateAssoc (l.map (fun d => (d, f d))) k v
      = l.map (fun d => (d, if d == k then v else f d)) := by
  induction l with
  | nil => rfl
  | cons d rest ih =>
      by_cases hd : d = k
      · subst hd
        simpa [updateAssoc] using ih
      · simpa [updateAssoc, hd] using ih

/-- Folding the weekday-slot assignments over any initial table: each slot
ends up holding the write of the last record that hits it (or its initial
value). -/
theorem overlay_foldl (g : ParsedRec → β) :
    ∀ (recs : List ParsedRec) (l : List String) (f : String → β),
      recs.foldl (fun acc r => updateAssoc acc (weekdayPt r.date) (g r))
          (l.map (fun d => (d, f d)))
        = l.map (fun d => (d,
            ((recs.reverse.find? (fun x => weekdayPt x.date == d)).map
                g).getD (f d))) := by
  intro recs
  induction recs with
  | nil => intro l f; simp
  | cons r rs ih =>
      intro l f
      rw [List.foldl_cons, updateAssoc_map,
        ih l (fun d => if d == weekdayPt r.date then g r else f d)]
      have hfun : ∀ d : String,
          (((rs.reverse.find? (fun x => weekdayPt x.date == d)).map g).getD
              (if d == weekdayPt r.date then g r else f d))
            = (((r :: rs).reverse.find?
                  (fun x => weekdayPt x.date == d)).map g).getD (f d) := by
        intro d
        rw [List.reverse_cons, List.find?_append]
        cases hfind : rs.reverse.find? (fun x => weekdayPt x.date == d) with
        | some x => simp [hfind, Option.or]
        | none =>
            by_cases hd : weekdayPt r.date = d
            · simp [hfind, Option.or, List.find?, hd]
            · have hb : (weekdayPt r.date == d) = false :=
                beq_eq_false_iff_ne.mpr hd
              simp [hfind, Option.or, List.find?, hb, Ne.symm hd]
      simp only [hfun]

theorem overlayTotals_eq (recs : List ParsedRec) :
    overlayTotals recs = diasOrdenados.map (fun d => (d,
      ((recs.reverse.find? (fun x => weekdayPt x.date == d)).map
          (fun r => r.total)).getD (JVal.num 0))) :=
  overlay_foldl (fun r => r.total) recs diasOrdenados (fun _ => JVal.num 0)

theorem overlayLabels_eq (recs : List ParsedRec) :
    overlayLabels recs = diasOrdenados.map (fun d => (d,
      ((recs.reverse.find? (fun x => weekdayPt x.date == d)).map
          (fun r => dayLabel r.date)).getD (""))) :=
  overlay_foldl (fun r => dayLabel r.date) recs diasOrdenados (fun _ => "")

theorem lookup_map_self (g : String → α) :
    ∀ (l : List String) (d : String), d ∈ l →
      (l.map (fun x => (x, g x))).lookup d = some (g d) := by
  intro l
  induction l with
  | nil => intro d hd; cases hd
  | cons x rest ih =>
      intro d hd
      by_cases hx : d = x
      · subst hx; simp [List.lookup]
      · rcases List.mem_cons.mp hd with h | h
        · exact absurd h hx
        · have hb : (d == x) = false := beq_eq_false_iff_ne.mpr hx
          simp [List.lookup, hb, ih d h]

theorem getD_range_map (f : Nat → α) (n i : Nat) (h : i < n) (dflt : α) :
    ((List.range n).map f).getD i dflt = f i := by
  rw [List.getD_eq_getElem?_getD, List.getElem?_map, List.getElem?_range h]
  rfl

/-! ## Success-shape lemmas for the three pipelines -/

theorem categoryNormalize_ok {data : List RawRecord} {res : CatResult}
    (h : categoryNormalize data = Except.ok res) :
    ∃ cats raws,
      extractAll (fun r => r.id) data = some cats ∧
      extractAll (fun r => r.total) data = some raws ∧
      coerceLoop raws = Except.ok (res.values, res.warnings) ∧
      res.labels = cats := by
  unfold categoryNormalize at h
  by_cases he : data.isEmpty
  · rw [if_pos he] at h; cases h
  · rw [if_neg he] at h
    cases h1 : extractAll (fun r => r.id) data with
    | none => rw [h1] at h; cases h
    | some cats =>
        rw [h1] at h
        cases h2 : extractAll (fun r => r.total) data with
        | none => rw [h2] at h; cases h
        | some raws =>
            rw [h2] at h
            replace h : Except.map
                (fun p => (⟨cats, p.1, p.2⟩ : CatResult))
                (coerceLoop raws) = Except.ok res := h
            cases h3 : coerceLoop raws with
            | error e => rw [h3] at h; simp [Except.map] at h
            | ok p =>
                obtain ⟨vs, w⟩ := p
                rw [h3] at h
                simp [Except.map] at h
                exact ⟨cats, raws, rfl, rfl, by rw [h3, ← h], by rw [← h]⟩

theorem incomeNormalize_ok {data : List RawRecord} {res : IncomeResult}
    (h : incomeNormalize data = Except.ok res) :
    ∃ ids raws,
      extractAll (fun r => r.id) data = some ids ∧
      extractAll (fun r => r.total) data = some raws ∧
      res.labels = ids.map capwords ∧
      res.values = raws := by
  unfold incomeNormalize at h
  by_cases he : data.isEmpty
  · rw [if_pos he] at h; cases h
  · rw [if_neg he] at h
    cases h1 : extractAll (fun r => r.id) data with
    | none => rw [h1] at h; cases h
    | some ids =>
        rw [h1] at h
        cases h2 : extractAll (fun r => r.total) data with
        | none => rw [h2] at h; cases h
        | some raws =>
            rw [h2] at h
            replace h : Except.ok (⟨ids.map capwords, raws⟩ : IncomeResult)
                = Except.ok res := h
            cases h
            exact ⟨ids, raws, rfl, rfl, rfl, rfl⟩

/-- Abbreviation for the parsed-record list the date pipeline builds with
`zip(dates, weekdays, totals)`. -/
def mkRecs (dates : List Date) (totals : List JVal) : List ParsedRec :=
  (dates.zip totals).map (fun p => ParsedRec.mk p.1 p.2)

theorem dateChart_ok {data : List RawRecord} {res : DateResult}
    (h : dateChart data = Except.ok res) :
    ∃ dates totals,
      extractAll (fun r => r.id.bind parseDate) data = some dates ∧
      extractAll (fun r => r.total) data = some totals ∧
      res.labels = (overlayLabels (mkRecs dates totals)).map
          (fun p => if p.2 ≠ "" then p.2 else p.1) ∧
      res.values = (overlayTotals (mkRecs dates totals)).map
          (fun p => p.2) ∧
      sumJ res.values = some res.total := by
  unfold dateChart at h
  by_cases he : data.isEmpty
  · rw [if_pos he] at h; cases h
  · rw [if_neg he] at h
    cases h1 : extractAll (fun r => r.id.bind parseDate) data with
    | none => rw [h1] at h; cases h
    | some dates =>
        rw [h1] at h
        cases h2 : extractAll (fun r => r.total) data with
        | none => rw [h2] at h; cases h
        | some totals =>
            rw [h2] at h
            replace h : (match sumJ ((overlayTotals
                  (mkRecs dates totals)).map (fun p => p.2)) with
              | none => Except.error Err.typeError
              | some s => Except.ok (⟨(overlayLabels
                    (mkRecs dates totals)).map
                      (fun p => if p.2 ≠ "" then p.2 else p.1),
                  (overlayTotals (mkRecs dates totals)).map (fun p => p.2),
                  s⟩ : DateResult)) = Except.ok res := h
            cases h3 : sumJ ((overlayTotals (mkRecs dates totals)).map
                (fun p => p.2)) with
            | none => rw [h3] at h; cases h
            | some s =>
                rw [h3] at h
                replace h : Except.ok (⟨(overlayLabels
                      (mkRecs dates totals)).map
                        (fun p => if p.2 ≠ "" then p.2 else p.1),
                    (overlayTotals (mkRecs dates totals)).map (fun p => p.2),
                    s⟩ : DateResult) = Except.ok res := h
                cases h
                exact ⟨dates, totals, rfl, rfl, rfl, rfl, by rw [h3]⟩

/-! ## Failure-propagation lemmas -/

theorem isEmpty_false_of_mem {data : List RawRecord} {r : RawRecord}
    (hr : r ∈ data) : ¬(data.isEmpty = true) := by
  cases data with
  | nil => cases hr
  | cons a l => simp

theorem categoryNormalize_error_of_missing {data : List RawRecord}
    {r : RawRecord} (hr : r ∈ data) (hmiss : r.id = none ∨ r.total = none) :
    categoryNormalize data = Except.error Err.malformedRecord := by
  unfold categoryNormalize
  rw [if_neg (isEmpty_false_of_mem hr)]
  rcases hmiss with hid | htot
  · rw [extractAll_none_of_mem (fun r => r.id) hr hid]
  · cases h1 : extractAll (fun r => r.id) data with
    | none => rfl
    | some cats => rw [extractAll_none_of_mem (fun r => r.total) hr htot]

theorem categoryNormalize_error_of_noncoercible {data : List RawRecord}
    {r : RawRecord} {t : JVal} (hr : r ∈ data) (ht : r.total = some t)
    (hf : pyFloat? t = none) :
    categoryNormalize data = Except.error Err.malformedRecord := by
  unfold categoryNormalize
  rw [if_neg (isEmpty_false_of_mem hr)]
  cases h1 : extractAll (fun r => r.id) data with
  | none => rfl
  | some cats =>
      cases h2 : extractAll (fun r => r.total) data with
      | none => rfl
      | some raws =>
          have htm : t ∈ raws := extractAll_mem_of_mem _ h2 hr ht
          show Except.map (fun p => (⟨cats, p.1, p.2⟩ : CatResult))
              (coerceLoop raws) = Except.error Err.malformedRecord
          rw [coerceLoop_error_of_mem htm hf]
          rfl

theorem incomeNormalize_error_of_missing {data : List RawRecord}
    {r : RawRecord} (hr : r ∈ data) (hmiss : r.id = none ∨ r.total = none) :
    incomeNormalize data = Except.error Err.malformedRecord := by
  unfold incomeNormalize
  rw [if_neg (isEmpty_false_of_mem hr)]
  rcases hmiss with hid | htot
  · rw [extractAll_none_of_mem (fun r => r.id) hr hid]
  · cases h1 : extractAll (fun r => r.id) data with
    | none => rfl
    | some ids => rw [extractAll_none_of_mem (fun r => r.total) hr htot]

theorem getD_map_lt (l : List α) (f : α → β) (i : Nat) (h : i < l.length)
    (d : β) (d' : α) :
    (l.map f).getD i d = f (l.getD i d') := by
  rw [List.getD_eq_getElem?_getD, List.getElem?_map,
    List.getElem?_eq_getElem h, List.getD_eq_getElem?_getD,
    List.getElem?_eq_getElem h]
  rfl

/-! ## The claims -/

/-- C3 (counterexample): the claim covers the `colors_to_use` selection of
both pie-chart scripts, and asserts that an even category count yields a
2-tone cycle `[c0,c1,c0,c1]`.  In `generate_income_chart.py`, 4 categories
(an even count) get `[claro, medio, escuro, claro]` — three distinct
colors, which no 2-tone cycle can produce. -/
theorem income_even_count_not_two_tone :
    incomeColorsToUse 4 = [incomeClaro, incomeMedio, incomeEscuro,
      incomeClaro] ∧
    (incomeColorsToUse 4).dedup.length = 3 :=
  ⟨rfl, by decide⟩

/-- C3 (amended): the spending category chart follows the stated policy
exactly — 1 category → the single mid tone, an odd count → the 3-tone cycle
`[c0,c1,c2,c0,…]`, an even count → the 2-tone cycle `[c0,c1,c0,c1,…]`
(so 3 categories get `[c0,c1,c2]` and 4 get `[c0,c1,c0,c1]`) — while the
income variant always cycles its 3-tone palette regardless of parity. -/
theorem color_policy :
    colorsToUse 1 = [verdeMedio] ∧
    (∀ n, n % 2 = 1 → n ≠ 1 → ∀ i, i < n →
        (colorsToUse n).getD i ("")
          = [verdeClaro, verdeMedio, verdeEscuro].getD (i % 3) ("")) ∧
    (∀ n, n ≠ 0 → n % 2 = 0 → ∀ i, i < n →
        (colorsToUse n).getD i ("")
          = [verdeClaro, verdeEscuro].getD (i % 2) ("")) ∧
    colorsToUse 3 = [verdeClaro, verdeMedio, verdeEscuro] ∧
    colorsToUse 4 = [verdeClaro, verdeEscuro, verdeClaro, verdeEscuro] ∧
    (∀ n i, i < n →
        (incomeColorsToUse n).getD i ("")
          = [incomeClaro, incomeMedio, incomeEscuro].getD (i % 3) ("")) := by
  refine ⟨rfl, ?_, ?_, rfl, rfl, ?_⟩
  · intro n hodd hne1 i hi
    have h0 : n ≠ 0 := by omega
    unfold colorsToUse
    rw [if_neg (by simpa using h0), if_neg (by simpa using hne1),
      if_pos (by simp [hodd])]
    exact getD_range_map _ n i hi _
  · intro n h0 heven i hi
    have hne1 : n ≠ 1 := by omega
    unfold colorsToUse
    rw [if_neg (by simpa using h0), if_neg (by simpa using hne1),
      if_neg (by simp [heven])]
    exact getD_range_map _ n i hi _
  · intro n i hi
    unfold incomeColorsToUse
    exact getD_range_map _ n i hi _

/-- Witness for C3: 5 categories (odd) in the spending chart — slot 3 wraps
back to the light tone. -/
theorem color_policy_witness :
    5 % 2 = 1 ∧ 5 ≠ 1 ∧ 3 < 5 ∧
    (colorsToUse 5).getD 3 ("")
      = [verdeClaro, verdeMedio, verdeEscuro].getD (3 % 3) ("") :=
  ⟨rfl, by decide, by decide, color_policy.2.1 5 rfl (by decide) 3 (by decide)⟩

/-- C4 (confirmed): on success the category normalizer emits one point per
input record, while the date-mode normalizer always emits exactly 7 points
(the hard-coded window), however many records came in. -/
theorem series_length_policy :
    (∀ (data : List RawRecord) (res : CatResult),
        categoryNormalize data = Except.ok res →
        res.labels.length = data.length ∧
        res.values.length = data.length) ∧
    (∀ (data : List RawRecord) (res : DateResult),
        dateChart data = Except.ok res →
        res.labels.length = 7 ∧ res.values.length = 7) := by
  constructor
  · intro data res h
    rcases categoryNormalize_ok h with ⟨cats, raws, h1, h2, h3, h4⟩
    constructor
    · rw [h4]; exact extractAll_length _ h1
    · rw [coerceLoop_length h3]; exact extractAll_length _ h2
  · intro data res h
    rcases dateChart_ok h with ⟨dates, totals, h1, h2, hl, hv, hs⟩
    constructor
    · rw [hl, List.length_map, overlayLabels_eq, List.length_map]; rfl
    · rw [hv, List.length_map, overlayTotals_eq, List.length_map]; rfl

/-- Witness for C4: one category record gives a 1-point series; one date
record still gives a 7-point series. -/
theorem series_length_policy_witness :
    (["food"].length = [RawRecord.mk (some "food")
        (some (JVal.num 5))].length ∧
      [(5 : ℚ)].length = [RawRecord.mk (some "food")
        (some (JVal.num 5))].length) ∧
    [JVal.num 5, JVal.num 0, JVal.num 0, JVal.num 0, JVal.num 0, JVal.num 0,
      JVal.num 0].length = 7 :=
  ⟨series_length_policy.1 [RawRecord.mk (some "food") (some (JVal.num 5))]
      ⟨["food"], [(5 : ℚ)], 0⟩ rfl,
    (series_length_policy.2 [RawRecord.mk (some "2024-01-01")
        (some (JVal.num 5))]
      ⟨["seg (01/01)", "ter", "qua", "qui", "sex", "sáb", "dom"],
        [JVal.num 5, JVal.num 0, JVal.num 0, JVal.num 0, JVal.num 0,
          JVal.num 0, JVal.num 0],
        (5 : ℚ) + (0 + (0 + (0 + (0 + (0 + (0 + 0))))))⟩ rfl).2⟩

/-- C8 (confirmed): normalization is a pure function of the input
collection — two runs on equal inputs produce equal series and totals (the
date pipeline does not even consult an injected today). -/
theorem normalization_deterministic (d₁ d₂ : List RawRecord)
    (h : d₁ = d₂) :
    categoryNormalize d₁ = categoryNormalize d₂ ∧
    dateChart d₁ = dateChart d₂ ∧
    incomeNormalize d₁ = incomeNormalize d₂ := by
  subst h; exact ⟨rfl, rfl, rfl⟩

/-- Witness for C8. -/
theorem normalization_deterministic_witness :
    categoryNormalize [RawRecord.mk (some "food") (some (JVal.num 3))]
        = categoryNormalize [RawRecord.mk (some "food")
            (some (JVal.num 3))] ∧
    dateChart [RawRecord.mk (some "food") (some (JVal.num 3))]
        = dateChart [RawRecord.mk (some "food") (some (JVal.num 3))] ∧
    incomeNormalize [RawRecord.mk (some "food") (some (JVal.num 3))]
        = incomeNormalize [RawRecord.mk (some "food")
            (some (JVal.num 3))] :=
  normalization_deterministic _ _ rfl

/-- C10 (confirmed): every label the income chart emits is the record's
`_id` passed through `string.capwords`, and `capwords` is not the identity
("food" becomes "Food"). -/
theorem income_labels_capwords :
    (∀ (data : List RawRecord) (ids : List String) (res : IncomeResult),
        extractAll (fun r => r.id) data = some ids →
        incomeNormalize data = Except.ok res →
        res.labels = ids.map capwords) ∧
    capwords "food" ≠ "food" := by
  constructor
  · intro data ids res hids h
    rcases incomeNormalize_ok h with ⟨ids', raws, h1, h2, h3, h4⟩
    rw [hids] at h1
    cases h1
    exact h3
  · decide

/-- Witness for C10. -/
theorem income_labels_capwords_witness :
    (⟨["Food"], [JVal.num 1]⟩ : IncomeResult).labels
      = ["food"].map capwords :=
  income_labels_capwords.1 [RawRecord.mk (some "food") (some (JVal.num 1))]
    ["food"] ⟨["Food"], [JVal.num 1]⟩ rfl rfl

/-- C5 (counterexample): the claim asserts `value >= 0` for every point of
every output series.  The income variant does not clamp: a record with
total `-5` normalizes successfully to a point whose value is `-5 < 0`, with
no warning mechanism at all. -/
theorem income_negative_not_clamped :
    incomeNormalize [RawRecord.mk (some "a") (some (JVal.num (-5)))]
        = Except.ok ⟨["A"], [JVal.num (-5)]⟩ ∧
    ((-5 : ℚ) < 0) :=
  ⟨rfl, by decide⟩

/-- C5 (amended): only the spending category chart clamps — there, every
record whose total coerces negative contributes value `0.0`, one stderr
warning is counted per negative record, and processing continues (one
output value per input record, all values nonnegative).  The income
variant copies the raw totals into the series unchanged, so negative
values pass through. -/
theorem category_clamps_income_does_not :
    (∀ (data : List RawRecord) (raws : List JVal) (res : CatResult),
        extractAll (fun r => r.total) data = some raws →
        categoryNormalize data = Except.ok res →
        (∀ v ∈ res.values, 0 ≤ v) ∧
        res.warnings = raws.countP isNegTotal ∧
        res.values.length = raws.length) ∧
    (∀ (data : List RawRecord) (raws : List JVal) (res : IncomeResult),
        extractAll (fun r => r.total) data = some raws →
        incomeNormalize data = Except.ok res →
        res.values = raws) := by
  constructor
  · intro data raws res hraws h
    rcases categoryNormalize_ok h with ⟨cats, raws', h1, h2, h3, h4⟩
    rw [hraws] at h2
    cases h2
    exact ⟨coerceLoop_nonneg h3, coerceLoop_warnings h3,
      coerceLoop_length h3⟩
  · intro data raws res hraws h
    rcases incomeNormalize_ok h with ⟨ids, raws', h1, h2, h3, h4⟩
    rw [hraws] at h2
    cases h2
    exact h4

/-- Witness for C5: the category chart turns total `-5` into value `0` with
exactly one warning. -/
theorem category_clamps_witness :
    (⟨["rent"], [(0 : ℚ)], 1⟩ : CatResult).warnings
        = [JVal.num (-5)].countP isNegTotal ∧
    (⟨["rent"], [(0 : ℚ)], 1⟩ : CatResult).values.length
        = [JVal.num (-5)].length :=
  ⟨(category_clamps_income_does_not.1
      [RawRecord.mk (some "rent") (some (JVal.num (-5)))] [JVal.num (-5)]
      ⟨["rent"], [(0 : ℚ)], 1⟩ rfl rfl).2.1,
    (category_clamps_income_does_not.1
      [RawRecord.mk (some "rent") (some (JVal.num (-5)))] [JVal.num (-5)]
      ⟨["rent"], [(0 : ℚ)], 1⟩ rfl rfl).2.2⟩

/-- C6 (counterexample): the claim asserts that any record whose total
cannot be coerced makes normalization fail with no series emitted.  The
income variant never coerces: a record with total `"abc"` (not a number)
normalizes successfully, and the bad value is emitted inside the series. -/
theorem income_noncoercible_not_rejected :
    pyFloat? (JVal.str "abc") = none ∧
    incomeNormalize [RawRecord.mk (some "a") (some (JVal.str "abc"))]
      = Except.ok ⟨["A"], [JVal.str "abc"]⟩ :=
  ⟨rfl, rfl⟩

/-- C6 (amended): the spending category chart is strict — a record missing
`_id` or `total`, or whose total fails `float()` coercion, aborts the run
with exit 1 and no series; the income variant aborts on missing fields but
performs no numeric coercion at normalization time, so non-numeric totals
flow into the series (any failure happens later, in rendering). -/
theorem malformed_record_aborts :
    (∀ (data : List RawRecord) (r : RawRecord), r ∈ data →
        r.id = none ∨ r.total = none →
        categoryNormalize data = Except.error Err.malformedRecord) ∧
    (∀ (data : List RawRecord) (r : RawRecord) (t : JVal), r ∈ data →
        r.total = some t → pyFloat? t = none →
        categoryNormalize data = Except.error Err.malformedRecord) ∧
    (∀ (data : List RawRecord) (r : RawRecord), r ∈ data →
        r.id = none ∨ r.total = none →
        incomeNormalize data = Except.error Err.malformedRecord) :=
  ⟨fun _ _ hr hm => categoryNormalize_error_of_missing hr hm,
    fun _ _ _ hr ht hf =>
      categoryNormalize_error_of_noncoercible hr ht hf,
    fun _ _ hr hm => incomeNormalize_error_of_missing hr hm⟩

/-- Witness for C6: a well-formed record next to a non-coercible one —
the whole category run aborts, emitting nothing. -/
theorem malformed_record_aborts_witness :
    pyFloat? (JVal.str "oops") = none ∧
    categoryNormalize [RawRecord.mk (some "food") (some (JVal.num 3)),
        RawRecord.mk (some "bad") (some (JVal.str "oops"))]
      = Except.error Err.malformedRecord :=
  ⟨rfl, malformed_record_aborts.2.1
    [RawRecord.mk (some "food") (some (JVal.num 3)),
      RawRecord.mk (some "bad") (some (JVal.str "oops"))]
    (RawRecord.mk (some "bad") (some (JVal.str "oops")))
    (JVal.str "oops") (by decide) rfl rfl⟩

/-- C7 (confirmed): the date chart's `total_gastos` is the sum of the
plotted values, and the spec's end-to-end example holds on the category
chart: `[("food","100.50"), ("rent",-5)]` normalizes to
`[("food",100.50), ("rent",0.0)]` with one warning, and the summed total is
`100.50`. -/
theorem aggregate_total :
    (∀ (data : List RawRecord) (res : DateResult),
        dateChart data = Except.ok res →
        sumJ res.values = some res.total) ∧
    categoryNormalize
        [RawRecord.mk (some "food") (some (JVal.str "100.50")),
          RawRecord.mk (some "rent") (some (JVal.num (-5)))]
      = Except.ok ⟨["food", "rent"], [(100.50 : ℚ), 0], 1⟩ ∧
    [(100.50 : ℚ), 0].sum = (100.50 : ℚ) := by
  refine ⟨?_, ?_, by norm_num⟩
  · intro data res h
    rcases dateChart_ok h with ⟨_, _, _, _, _, _, hs⟩
    exact hs
  · have hf : pyFloat? (JVal.str "100.50") = some (100.50 : ℚ) := by
      have h : pyFloat? (JVal.str "100.50")
          = some (((100 : ℕ) : ℚ) + ((50 : ℕ) : ℚ) / ((10 : ℚ) ^ 2)) := rfl
      rw [h]; norm_num
    have hpos : ¬((100.50 : ℚ) < 0) := by norm_num
    have hneg : ((-5 : ℚ) < 0) := by norm_num
    have hn : pyFloat? (JVal.num (-5)) = some (-5 : ℚ) := rfl
    have hc : coerceLoop [JVal.str "100.50", JVal.num (-5)]
        = Except.ok ([(100.50 : ℚ), 0], 1) := by
      simp [coerceLoop, hf, hn, hpos, hneg, Except.map]
    simp [categoryNormalize, extractAll, hc, Except.map]

/-- Witness for C7: the date-mode total of a single Monday record is the
sum of the seven plotted values. -/
theorem aggregate_total_witness :
    sumJ [JVal.num 5, JVal.num 0, JVal.num 0, JVal.num 0, JVal.num 0,
        JVal.num 0, JVal.num 0]
      = some ((5 : ℚ) + (0 + (0 + (0 + (0 + (0 + (0 + 0))))))) :=
  aggregate_total.1 [RawRecord.mk (some "2024-01-01") (some (JVal.num 5))]
    ⟨["seg (01/01)", "ter", "qua", "qui", "sex", "sáb", "dom"],
      [JVal.num 5, JVal.num 0, JVal.num 0, JVal.num 0, JVal.num 0,
        JVal.num 0, JVal.num 0],
      (5 : ℚ) + (0 + (0 + (0 + (0 + (0 + (0 + 0))))))⟩ rfl

/-- C9 (confirmed): after the overlay loop, each weekday slot holds the
total of the last record (in input order) whose date falls on that weekday
— `reverse.find?` is exactly "last match in input order" — and `0` if no
record does; earlier same-weekday records are silently overwritten. -/
theorem weekday_last_write_wins :
    ∀ (recs : List ParsedRec) (dia : String), dia ∈ diasOrdenados →
      (overlayTotals recs).lookup dia
        = some (((recs.reverse.find?
            (fun x => weekdayPt x.date == dia)).map
            (fun r => r.total)).getD (JVal.num 0)) := by
  intro recs dia hdia
  rw [overlayTotals_eq]
  exact lookup_map_self _ diasOrdenados dia hdia

/-- Witness for C9: two Monday records (2024-01-01 and 2024-01-08) — the
`seg` slot keeps only the second total, `9`. -/
theorem weekday_last_write_wins_witness :
    (overlayTotals [ParsedRec.mk ⟨2024, 1, 1⟩ (JVal.num 5),
        ParsedRec.mk ⟨2024, 1, 8⟩ (JVal.num 9)]).lookup "seg"
      = some (JVal.num 9) := by
  rw [weekday_last_write_wins [ParsedRec.mk ⟨2024, 1, 1⟩ (JVal.num 5),
      ParsedRec.mk ⟨2024, 1, 8⟩ (JVal.num 9)] "seg" (by decide)]
  rfl

/-- C2 (counterexample): the claim says a record whose date lies outside
the N-day window ending today is ignored.  Take today = 2026-10-12 and one
record dated 2020-01-06 (a Monday, outside every 7-day window ending
today, as `inWindow` — built from the spec's words — confirms): the code
still writes its total `5` into the `seg` slot, so the record is not
ignored. -/
theorem date_out_of_window_not_ignored :
    inWindow ⟨2026, 10, 12⟩ 7 ⟨2020, 1, 6⟩ = false ∧
    dateChart [RawRecord.mk (some "2020-01-06") (some (JVal.num 5))]
      = Except.ok ⟨["seg (06/01)", "ter", "qua", "qui", "sex", "sáb",
          "dom"],
          [JVal.num 5, JVal.num 0, JVal.num 0, JVal.num 0, JVal.num 0,
            JVal.num 0, JVal.num 0], (5 : ℚ)⟩ ∧
    JVal.num 5 ≠ JVal.num 0 := by
  refine ⟨rfl, ?_, by decide⟩
  have h : dateChart [RawRecord.mk (some "2020-01-06")
        (some (JVal.num 5))]
      = Except.ok ⟨["seg (06/01)", "ter", "qua", "qui", "sex", "sáb",
          "dom"],
          [JVal.num 5, JVal.num 0, JVal.num 0, JVal.num 0, JVal.num 0,
            JVal.num 0, JVal.num 0],
          (5 : ℚ) + (0 + (0 + (0 + (0 + (0 + (0 + 0))))))⟩ := rfl
  rw [h]
  norm_num

/-- C2 (amended): the date-mode normalizer builds the fixed 7-slot week
`seg…dom` defaulting every slot to `0.0` and then overlays **every** parsed
record onto its weekday slot (last write wins); no record is filtered
against a window ending today — the output is fully determined by the
records alone. -/
theorem date_overlay_all_records :
    ∀ (data : List RawRecord) (dates : List Date) (totals : List JVal)
      (res : DateResult),
      extractAll (fun r => r.id.bind parseDate) data = some dates →
      extractAll (fun r => r.total) data = some totals →
      dateChart data = Except.ok res →
      res.values = diasOrdenados.map (fun d =>
        (((mkRecs dates totals).reverse.find?
            (fun x => weekdayPt x.date == d)).map
            (fun r => r.total)).getD (JVal.num 0)) := by
  intro data dates totals res h1 h2 h
  rcases dateChart_ok h with ⟨dates', totals', h1', h2', hl, hv, hs⟩
  rw [h1] at h1'
  cases h1'
  rw [h2] at h2'
  cases h2'
  rw [hv, overlayTotals_eq, List.map_map]
  rfl

/-- Witness for C2: a single Monday record lands in the `seg` slot; the
other six slots keep the default `0`. -/
theorem date_overlay_all_records_witness :
    [JVal.num 5, JVal.num 0, JVal.num 0, JVal.num 0, JVal.num 0, JVal.num 0,
        JVal.num 0]
      = diasOrdenados.map (fun d =>
        (((mkRecs [⟨2024, 1, 1⟩] [JVal.num 5]).reverse.find?
            (fun x => weekdayPt x.date == d)).map
            (fun r => r.total)).getD (JVal.num 0)) :=
  date_overlay_all_records
    [RawRecord.mk (some "2024-01-01") (some (JVal.num 5))]
    [⟨2024, 1, 1⟩] [JVal.num 5]
    ⟨["seg (01/01)", "ter", "qua", "qui", "sex", "sáb", "dom"],
      [JVal.num 5, JVal.num 0, JVal.num 0, JVal.num 0, JVal.num 0,
        JVal.num 0, JVal.num 0],
      (5 : ℚ) + (0 + (0 + (0 + (0 + (0 + (0 + 0))))))⟩ rfl rfl rfl

/-- C1 (counterexample): with zero input records the date script exits
with an error at the emptiness check (line 39) — it produces no 7-point
series at all. -/
theorem date_empty_input_rejected :
    dateChart [] = Except.error Err.emptyInput := rfl

/-- C1 (amended): an empty input is rejected with exit 1 (no series); for
every input that processes successfully the series has exactly 7 points in
the fixed order `seg…dom` — not the 7 trailing days ending an injected
today, which the code never consults — and every weekday no record maps to
keeps value `0.0` and its bare weekday abbreviation as label. -/
theorem date_fixed_week_shape :
    dateChart [] = Except.error Err.emptyInput ∧
    ∀ (data : List RawRecord) (res : DateResult),
      dateChart data = Except.ok res →
      res.labels.length = 7 ∧ res.values.length = 7 ∧
      ∀ k, k < 7 →
        (∀ r ∈ data, (r.id.bind parseDate).map weekdayPt
            ≠ some (diasOrdenados.getD k (""))) →
        res.values.getD k (JVal.num 1) = JVal.num 0 ∧
        res.labels.getD k ("") = diasOrdenados.getD k ("") := by
  refine ⟨rfl, ?_⟩
  intro data res h
  rcases dateChart_ok h with ⟨dates, totals, h1, h2, hl, hv, hs⟩
  have hlen : diasOrdenados.length = 7 := rfl
  refine ⟨?_, ?_, ?_⟩
  · rw [hl, List.length_map, overlayLabels_eq, List.length_map, hlen]
  · rw [hv, List.length_map, overlayTotals_eq, List.length_map, hlen]
  · intro k hk hno
    have hkl : k < diasOrdenados.length := by rw [hlen]; exact hk
    have hfind : (mkRecs dates totals).reverse.find?
        (fun x => weekdayPt x.date == diasOrdenados.getD k ("")) = none := by
      rw [List.find?_eq_none]
      intro x hx
      have hx' : x ∈ mkRecs dates totals := List.mem_reverse.mp hx
      rcases List.mem_map.mp hx' with ⟨p, hp, hpx⟩
      obtain ⟨a, b⟩ := p
      subst hpx
      have hdmem : a ∈ dates := (List.of_mem_zip hp).1
      rcases extractAll_mem_rev _ h1 hdmem with ⟨rec, hrec, hparse⟩
      intro hbeq
      have hwd : weekdayPt a = diasOrdenados.getD k ("") := eq_of_beq hbeq
      exact hno rec hrec (by rw [hparse, Option.map_some', hwd])
    constructor
    · rw [hv, overlayTotals_eq, List.map_map,
        getD_map_lt diasOrdenados _ k hkl _ ("")]
      simp only [Function.comp_apply]
      rw [hfind]
      rfl
    · rw [hl, overlayLabels_eq, List.map_map,
        getD_map_lt diasOrdenados _ k hkl _ ("")]
      simp only [Function.comp_apply]
      rw [hfind]
      simp

/-- Witness for C1: with one Monday record, slot 1 (`ter`) has no matching
record — its value is `0` and its label is the bare abbreviation. -/
theorem date_fixed_week_shape_witness :
    [JVal.num 5, JVal.num 0, JVal.num 0, JVal.num 0, JVal.num 0, JVal.num 0,
        JVal.num 0].getD 1 (JVal.num 1) = JVal.num 0 ∧
    ["seg (01/01)", "ter", "qua", "qui", "sex", "sáb", "dom"].getD 1 ("")
      = diasOrdenados.getD 1 ("") :=
  (date_fixed_week_shape.2
      [RawRecord.mk (some "2024-01-01") (some (JVal.num 5))]
      ⟨["seg (01/01)", "ter", "qua", "qui", "sex", "sáb", "dom"],
        [JVal.num 5, JVal.num 0, JVal.num 0, JVal.num 0, JVal.num 0,
          JVal.num 0, JVal.num 0],
        (5 : ℚ) + (0 + (0 + (0 + (0 + (0 + (0 + 0))))))⟩ rfl).2.2 1
    (by decide) (by decide)

end AdapChart
